import Mathlib

/-!
Verification development for a G-code post-processing tool
(`gcode_modifier.go`).  The program reads a G-code file as a list of text
lines, segments it into layers at boundary comment lines, accumulates a
per-layer perimeter-length signal from `G1` movement lines, classifies
layers as support-only from `; FEATURE:` comment lines, flags layers whose
signal drops sharply relative to the previous layer, and inserts corrective
`M104` (temperature) and `M106` (fan speed) instructions around each
flagged layer.

Modelling conventions:
* Lines are Lean `String`s; character-level work is done on `String.data`
  (a `List Char`) so that everything reduces in the kernel.
* Go `float64` values are modelled as `ℚ`.  Go float division by zero
  yields `+Inf`/`NaN`, which make every `<`/`>` comparison in the detector
  false; `ℚ` division by zero yields `0`, which also makes the detector's
  comparisons (against `-50`/`-95`) false, so the observable branch
  behaviour coincides.
* `math.Sqrt` is modelled by an exact rational square root (floor square
  root on numerator and denominator).  Every concrete input used in this
  development produces perfect squares, where the model agrees with the
  real square root.
* Go maps with `bool` values are modelled as total functions defaulting to
  `false`, matching Go's zero-value lookup semantics.
* `strconv.ParseFloat`/`strconv.Atoi` are modelled on plain decimal
  literals; any other form takes the parse-failure path, which the Go code
  silently turns into the value `0` (it discards the error).
-/

/-- Split a character list into whitespace-separated fields; models Go
`strings.Fields` (the accumulator holds the current field reversed). -/
def goFieldsAux : List Char → List Char → List (List Char)
  | acc, [] => if acc = [] then [] else [acc.reverse]
  | acc, c :: cs =>
    if c.isWhitespace then
      if acc = [] then goFieldsAux [] cs else acc.reverse :: goFieldsAux [] cs
    else goFieldsAux (c :: acc) cs

/-- Whitespace-separated fields of a line, as character lists. -/
def goFields (s : List Char) : List (List Char) := goFieldsAux [] s

/-- Test whether `p` is a leading piece of `s`; models Go `strings.HasPrefix`. -/
def strStartsWith (p s : String) : Bool := p.data.isPrefixOf s.data

/-- Test whether `needle` occurs somewhere in a character list. -/
def containsSeq (needle : List Char) : List Char → Bool
  | [] => needle.isPrefixOf []
  | c :: rest => needle.isPrefixOf (c :: rest) || containsSeq needle rest

/-- Models Go `strings.Contains`. -/
def strContains (s needle : String) : Bool := containsSeq needle.data s.data

/-- Numeric value of a digit string (most significant digit first). -/
def digitsToNat (l : List Char) : ℕ := l.foldl (fun n c => 10 * n + (c.toNat - 48)) 0

/-- Parse an unsigned decimal literal (`123`, `12.`, `.5`, `1.25`) to an
exact rational; `none` on any other shape.  Models the plain-decimal subset
of Go `strconv.ParseFloat`. -/
def parseUnsignedDec (cs : List Char) : Option ℚ :=
  let intPart := cs.takeWhile (fun c => c ≠ '.')
  let rest := cs.dropWhile (fun c => c ≠ '.')
  match rest with
  | [] =>
    if intPart ≠ [] && intPart.all Char.isDigit then some (digitsToNat intPart : ℚ)
    else none
  | _ :: frac =>
    if (intPart ≠ [] || frac ≠ []) && intPart.all Char.isDigit && frac.all Char.isDigit then
      some ((digitsToNat intPart : ℚ) + (digitsToNat frac : ℚ) / 10 ^ frac.length)
    else none

/-- Models the Go pattern `x, _ = strconv.ParseFloat(s, 64)`: a failed parse
leaves the zero value. -/
def goParseFloat (cs : List Char) : ℚ :=
  match cs with
  | '-' :: rest => -((parseUnsignedDec rest).getD 0)
  | '+' :: rest => (parseUnsignedDec rest).getD 0
  | _ => (parseUnsignedDec cs).getD 0

/-- Parse an unsigned decimal integer, `none` on any other shape. -/
def parseUnsignedInt (cs : List Char) : Option ℤ :=
  if cs ≠ [] && cs.all Char.isDigit then some (digitsToNat cs : ℤ) else none

/-- Models the Go pattern `n, _ = strconv.Atoi(s)`: a failed parse leaves
the zero value. -/
def goAtoi (s : String) : ℤ :=
  match s.data with
  | '-' :: rest => -((parseUnsignedInt rest).getD 0)
  | '+' :: rest => (parseUnsignedInt rest).getD 0
  | _ => (parseUnsignedInt s.data).getD 0

/-- Fuel-driven integer square root (halving the bit length each step);
the fuel only bounds the recursion depth. -/
def isqrtFuel : ℕ → ℕ → ℕ
  | 0, _ => 0
  | fuel + 1, n =>
    if n = 0 then 0
    else
      let r := 2 * isqrtFuel fuel (n / 4)
      if (r + 1) * (r + 1) ≤ n then r + 1 else r

/-- Floor integer square root (kernel-reducible). -/
def natSqrt (n : ℕ) : ℕ := isqrtFuel n n

/-- Floor square root of a nonnegative integer (0 on negatives). -/
def intSqrt (i : ℤ) : ℤ := (natSqrt i.toNat : ℤ)

/-- Exact rational square root: floor square root of numerator and
denominator.  On perfect squares (all concrete inputs in this file) this is
the exact value of `math.Sqrt`. -/
def ratSqrt (q : ℚ) : ℚ := mkRat (intSqrt q.num) (natSqrt q.den)

/-- calculateDistance calculates the distance between two points in the XY
plane; models `math.Sqrt(math.Pow(x2-x1, 2) + math.Pow(y2-y1, 2))`. -/
def calculateDistance (x1 y1 x2 y2 : ℚ) : ℚ :=
  ratSqrt ((x2 - x1) ^ 2 + (y2 - y1) ^ 2)

/-- detectLayerChange: a layer boundary is a line starting with the exact
comment marker. -/
def detectLayerChange (line : String) : Bool :=
  strStartsWith "; layer num/total_layer_count: " line

/-- Constants from the Go source (`const` block). `MIN_PREV_PERIM` is
declared in the source but never used. -/
def MIN_PREV_PERIM : ℚ := 10

/-- Upper percent-change threshold (a drop sharper than this triggers). -/
def PERIM_PCT_CHG_UPPER : ℚ := -50

/-- Lower percent-change threshold (a drop below this is ignored). -/
def PERIM_PCT_CHG_LOWER : ℚ := -95

/-- Layers at or below this index are never flagged. -/
def MIN_PROB_LAYER : ℤ := 20

/-- Fan-speed percentage injected below a problematic layer. -/
def FAN_SPEED_PCT_PROB_LAYERS : ℤ := 1

/-- Temperature increase injected below a problematic layer (°C). -/
def TEMP_INCREASE_PROB_LAYERS : ℤ := 20

/-- countLayers uses detectLayerChange to count the layers. -/
def countLayers (lines : List String) : ℕ :=
  (lines.filter (fun l => detectLayerChange l)).length

/-- getDefaultTemp: first `"; nozzle_temperature = <n>"` line wins, else 0.
The `(· .getD 1 "")` models Go `strings.Split(line, " = ")[1]`, which is
safe at every call site because the matched prefix contains `" = "`. -/
def getDefaultTemp (lines : List String) : ℤ :=
  match lines.find? (fun l => strStartsWith "; nozzle_temperature = " l) with
  | some l => goAtoi ((l.splitOn " = ").getD 1 "")
  | none => 0

/-- getMaxFanSpeed: first `"; fan_max_speed = <n>"` line wins, else 0. -/
def getMaxFanSpeed (lines : List String) : ℤ :=
  match lines.find? (fun l => strStartsWith "; fan_max_speed = " l) with
  | some l => goAtoi ((l.splitOn " = ").getD 1 "")
  | none => 0

/-- A feature-tag line naming a non-support feature: it has the
`"; FEATURE:"` leader and does not contain `"Support"`. -/
def isOtherFeatureLine (l : String) : Bool :=
  strStartsWith "; FEATURE:" l && !(strContains l "Support")

/-- Pointwise update of a map modelled as a total function
(missing Go map keys read as `false`). -/
def updateMap (m : ℤ → Bool) (k : ℤ) (v : Bool) : ℤ → Bool :=
  fun i => if i = k then v else m i

/-- Loop state of `getMapOfSupportLayers`. -/
structure SupportState where
  m : ℤ → Bool
  currentLayer : ℤ
  hasOtherFeature : Bool

/-- One line of the `getMapOfSupportLayers` loop. -/
def supportStep (s : SupportState) (line : String) : SupportState :=
  if detectLayerChange line then
    let m1 := if s.hasOtherFeature then updateMap s.m s.currentLayer false else s.m
    { m := updateMap m1 (s.currentLayer + 1) false
      currentLayer := s.currentLayer + 1
      hasOtherFeature := false }
  else if isOtherFeatureLine line then
    { s with hasOtherFeature := true }
  else if line = "; FEATURE: Support" then
    { s with m := updateMap s.m s.currentLayer true }
  else s

/-- Initial state of the `getMapOfSupportLayers` loop. -/
def initSupport : SupportState :=
  { m := fun _ => false, currentLayer := 0, hasOtherFeature := false }

/-- getMapOfSupportLayers returns a map of layer number and true/false. -/
def getMapOfSupportLayers (lines : List String) : ℤ → Bool :=
  (lines.foldl supportStep initSupport).m

/-- Result of scanning a movement line for `X`/`Y` fields (the Go switch
over `strings.Fields`; a later field overwrites an earlier one). -/
structure XYParse where
  x : ℚ
  y : ℚ
  hasX : Bool
  hasY : Bool

/-- Extract the X and Y values from a `G1` line, as the Go loop does. -/
def extractXY (line : String) : XYParse :=
  (goFields line.data).foldl
    (fun p f =>
      match f with
      | [] => p
      | c :: rest =>
        if c = 'X' then { p with x := goParseFloat rest, hasX := true }
        else if c = 'Y' then { p with y := goParseFloat rest, hasY := true }
        else p)
    ⟨0, 0, false, false⟩

/-- Loop state of `detectProblematicLayers` that is independent of the
flag list: the geometric signal tracker. -/
structure TrackState where
  currentLayer : ℤ
  previousPerimeterLength : ℚ
  currentPerimeterLength : ℚ
  lastX : ℚ
  lastY : ℚ
  extruding : Bool

/-- Initial tracker state (`currentLayer := -1`, Go zero values elsewhere). -/
def initTrack : TrackState :=
  { currentLayer := -1
    previousPerimeterLength := 0
    currentPerimeterLength := 0
    lastX := 0
    lastY := 0
    extruding := false }

/-- One line of the tracker: at a boundary, finalize the signal and reset
the accumulator; on a `G1` line with both X and Y, extend the signal (when
already extruding) and update the last point.  `extruding`, `lastX`,
`lastY` are NOT touched by the boundary branch. -/
def trackStep (s : TrackState) (line : String) : TrackState :=
  if detectLayerChange line then
    { s with
      currentLayer := s.currentLayer + 1
      previousPerimeterLength := s.currentPerimeterLength
      currentPerimeterLength := 0 }
  else if strStartsWith "G1" line then
    let p := extractXY line
    if p.hasX && p.hasY then
      { s with
        currentPerimeterLength :=
          if s.extruding then
            s.currentPerimeterLength + calculateDistance s.lastX s.lastY p.x p.y
          else s.currentPerimeterLength
        extruding := true
        lastX := p.x
        lastY := p.y }
    else s
  else s

/-- The flag decision made at one boundary, on the post-increment counter
and the pre-reset signals, with the source's nested conditionals. -/
def boundaryFlag (support : ℤ → Bool) (currentLayer : ℤ)
    (currentPerimeterLength previousPerimeterLength : ℚ) : Bool :=
  if currentLayer > 1 then
    let absolutePerimeterChange := currentPerimeterLength - previousPerimeterLength
    let perimeterPercentageChange := absolutePerimeterChange / previousPerimeterLength * 100
    if perimeterPercentageChange < PERIM_PCT_CHG_UPPER ∧
        perimeterPercentageChange > PERIM_PCT_CHG_LOWER ∧
        currentPerimeterLength > 80 then
      if currentLayer > MIN_PROB_LAYER ∧ support currentLayer = false then true
      else false
    else false
  else false

/-- One line of `detectProblematicLayers`: the tracker step plus, at a
boundary, the flag decision appending the post-increment counter. -/
def detectStep (support : ℤ → Bool) (sp : TrackState × List ℤ) (line : String) :
    TrackState × List ℤ :=
  if detectLayerChange line then
    (trackStep sp.1 line,
     if boundaryFlag support (sp.1.currentLayer + 1) sp.1.currentPerimeterLength
         sp.1.previousPerimeterLength then
       sp.2 ++ [sp.1.currentLayer + 1]
     else sp.2)
  else (trackStep sp.1 line, sp.2)

/-- detectProblematicLayers with the support map passed explicitly. -/
def detectProblematicLayersWith (support : ℤ → Bool) (lines : List String) : List ℤ :=
  (lines.foldl (detectStep support) (initTrack, [])).2

/-- detectProblematicLayers as run by `processFile`: the global support map
is built from the same lines beforehand. -/
def detectProblematicLayers (lines : List String) : List ℤ :=
  detectProblematicLayersWith (getMapOfSupportLayers lines) lines

/-- Observer fold: the (post-increment counter, current signal, previous
signal) triple seen at each boundary, in file order. -/
def eventsStep (se : TrackState × List (ℤ × ℚ × ℚ)) (line : String) :
    TrackState × List (ℤ × ℚ × ℚ) :=
  if detectLayerChange line then
    (trackStep se.1 line,
     se.2 ++ [(se.1.currentLayer + 1, se.1.currentPerimeterLength,
       se.1.previousPerimeterLength)])
  else (trackStep se.1 line, se.2)

/-- Boundary events reached from an arbitrary tracker state. -/
def boundaryEventsFrom (s : TrackState) (lines : List String) : List (ℤ × ℚ × ℚ) :=
  (lines.foldl eventsStep (s, [])).2

/-- Boundary events of a whole file. -/
def boundaryEvents (lines : List String) : List (ℤ × ℚ × ℚ) :=
  boundaryEventsFrom initTrack lines

/-- The claim's flag condition, stated as one flat conjunction over a
boundary event (spec wording, for comparison with `boundaryFlag`). -/
def claimFlag (support : ℤ → Bool) (e : ℤ × ℚ × ℚ) : Bool :=
  decide (1 < e.1 ∧ (e.2.1 - e.2.2) / e.2.2 * 100 < -50 ∧
    (e.2.1 - e.2.2) / e.2.2 * 100 > -95 ∧ 80 < e.2.1 ∧ 20 < e.1 ∧
    support e.1 = false)

/-- Declarative version of the detector, following the claim's wording:
filter the boundary events by the flat flag condition and keep the layer
indices, in file order. -/
def detectSpec (support : ℤ → Bool) (lines : List String) : List ℤ :=
  ((boundaryEvents lines).filter (claimFlag support)).map (fun e => e.1)

/-- The synthesized `M104` line (Go `fmt.Sprintf`, including its trailing
newline). -/
def mkTempLine (temperature layerNumber : ℤ) : String :=
  "M104 S" ++ toString temperature ++ " ; Set hotend temperature to " ++
    toString temperature ++ "°C at layer " ++ toString layerNumber ++ "\n"

/-- Go `int(float64(fanSpeedPercent) / 100.0 * 255)`: exact rational value
truncated toward zero. -/
def fanSpeedValue (fanSpeedPercent : ℤ) : ℤ :=
  let q : ℚ := (fanSpeedPercent : ℚ) / 100 * 255
  if 0 ≤ q then ⌊q⌋ else ⌈q⌉

/-- The synthesized `M106` line (Go `fmt.Sprintf`, including its trailing
newline). -/
def mkFanLine (value fanSpeedPercent layerNumber : ℤ) : String :=
  "M106 S" ++ toString value ++ " ; Set fan speed to " ++
    toString fanSpeedPercent ++ "% at layer " ++ toString layerNumber ++ "\n"

/-- The common walk of `modifyGcodeTemperature` and `modifyGcodeFanSpeed`
(the two Go functions are identical except for the synthesized line):
copy every line, count boundaries from `-1`, and right after the boundary
whose post-increment counter equals `layerNumber` append `ins`. -/
def injectWalk (ins : String) (layerNumber : ℤ) : ℤ → List String → List String
  | _, [] => []
  | currentLayer, line :: rest =>
    if detectLayerChange line then
      if currentLayer + 1 = layerNumber then
        line :: ins :: injectWalk ins layerNumber (currentLayer + 1) rest
      else
        line :: injectWalk ins layerNumber (currentLayer + 1) rest
    else
      line :: injectWalk ins layerNumber currentLayer rest

/-- modifyGcodeTemperature modifies the hotend temperature at a specific
layer. -/
def modifyGcodeTemperature (lines : List String) (layerNumber temperature : ℤ) :
    List String :=
  injectWalk (mkTempLine temperature layerNumber) layerNumber (-1) lines

/-- modifyGcodeFanSpeed modifies the fan speed at a specific layer; the
0-255 value is computed once, before the walk. -/
def modifyGcodeFanSpeed (lines : List String) (layerNumber fanSpeedPercent : ℤ) :
    List String :=
  injectWalk (mkFanLine (fanSpeedValue fanSpeedPercent) fanSpeedPercent layerNumber)
    layerNumber (-1) lines

/-- The per-flagged-layer loop body of `processFile`: four injections, in
source order, on the evolving line sequence. -/
def probLayerLoop (defaultTemp maxFanSpeed : ℤ) :
    List String → List ℤ → List String
  | ls, [] => ls
  | ls, layer :: rest =>
    let ls1 := modifyGcodeFanSpeed ls (layer - 3) FAN_SPEED_PCT_PROB_LAYERS
    let ls2 := modifyGcodeTemperature ls1 (layer - 3)
      (defaultTemp + TEMP_INCREASE_PROB_LAYERS)
    let ls3 := modifyGcodeFanSpeed ls2 (layer + 2) maxFanSpeed
    let ls4 := modifyGcodeTemperature ls3 (layer + 2) defaultTemp
    probLayerLoop defaultTemp maxFanSpeed ls4 rest

/-- The pure core of `processFile`: detect problematic layers, then apply
the four corrective injections per flagged layer; the default temperature
and maximum fan speed are read once, from the original lines. -/
def processLines (lines : List String) : List String :=
  probLayerLoop (getDefaultTemp lines) (getMaxFanSpeed lines) lines
    (detectProblematicLayers lines)

/-- Drop lines through the `j`-th boundary line (so that what remains
starts the `j`-th layer's content; `j = 0` keeps everything). -/
def dropBoundaries : ℕ → List String → List String
  | 0, ls => ls
  | _ + 1, [] => []
  | j + 1, l :: ls =>
    if detectLayerChange l then dropBoundaries j ls else dropBoundaries (j + 1) ls

/-- The content of layer `j`: the lines strictly between boundary `j` and
boundary `j + 1` (layer 0 is the content before the first boundary). -/
def layerSpan (lines : List String) (j : ℕ) : List String :=
  (dropBoundaries j lines).takeWhile (fun l => !detectLayerChange l)

/-- A span contains the exact support feature tag. -/
def spanSupp (ls : List String) : Bool :=
  ls.any (fun l => l = "; FEATURE: Support")

/-- A span contains a feature tag naming a non-support feature. -/
def spanOther (ls : List String) : Bool := ls.any isOtherFeatureLine
/-- Concrete file: 23 boundaries, one axis-aligned move per layer; layer signals are 0, then 100 for spans 1-20, then 50 for span 21 (a drop of exactly 50 percent, evaluated at post-increment counter 22). -/
def fileDrop50 : List String :=
  ["; layer num/total_layer_count: 1",
    "G1 X100 Y0",
    "; layer num/total_layer_count: 2",
    "G1 X200 Y0",
    "; layer num/total_layer_count: 3",
    "G1 X300 Y0",
    "; layer num/total_layer_count: 4",
    "G1 X400 Y0",
    "; layer num/total_layer_count: 5",
    "G1 X500 Y0",
    "; layer num/total_layer_count: 6",
    "G1 X600 Y0",
    "; layer num/total_layer_count: 7",
    "G1 X700 Y0",
    "; layer num/total_layer_count: 8",
    "G1 X800 Y0",
    "; layer num/total_layer_count: 9",
    "G1 X900 Y0",
    "; layer num/total_layer_count: 10",
    "G1 X1000 Y0",
    "; layer num/total_layer_count: 11",
    "G1 X1100 Y0",
    "; layer num/total_layer_count: 12",
    "G1 X1200 Y0",
    "; layer num/total_layer_count: 13",
    "G1 X1300 Y0",
    "; layer num/total_layer_count: 14",
    "G1 X1400 Y0",
    "; layer num/total_layer_count: 15",
    "G1 X1500 Y0",
    "; layer num/total_layer_count: 16",
    "G1 X1600 Y0",
    "; layer num/total_layer_count: 17",
    "G1 X1700 Y0",
    "; layer num/total_layer_count: 18",
    "G1 X1800 Y0",
    "; layer num/total_layer_count: 19",
    "G1 X1900 Y0",
    "; layer num/total_layer_count: 20",
    "G1 X2000 Y0",
    "; layer num/total_layer_count: 21",
    "G1 X2100 Y0",
    "; layer num/total_layer_count: 22",
    "G1 X2150 Y0",
    "; layer num/total_layer_count: 23"]

/-- Concrete file: like fileDrop50 but with signals 300 per span and a final span signal of 120 (a 60 percent drop with the post-drop signal above 80). -/
def fileDrop60 : List String :=
  ["; layer num/total_layer_count: 1",
    "G1 X300 Y0",
    "; layer num/total_layer_count: 2",
    "G1 X600 Y0",
    "; layer num/total_layer_count: 3",
    "G1 X900 Y0",
    "; layer num/total_layer_count: 4",
    "G1 X1200 Y0",
    "; layer num/total_layer_count: 5",
    "G1 X1500 Y0",
    "; layer num/total_layer_count: 6",
    "G1 X1800 Y0",
    "; layer num/total_layer_count: 7",
    "G1 X2100 Y0",
    "; layer num/total_layer_count: 8",
    "G1 X2400 Y0",
    "; layer num/total_layer_count: 9",
    "G1 X2700 Y0",
    "; layer num/total_layer_count: 10",
    "G1 X3000 Y0",
    "; layer num/total_layer_count: 11",
    "G1 X3300 Y0",
    "; layer num/total_layer_count: 12",
    "G1 X3600 Y0",
    "; layer num/total_layer_count: 13",
    "G1 X3900 Y0",
    "; layer num/total_layer_count: 14",
    "G1 X4200 Y0",
    "; layer num/total_layer_count: 15",
    "G1 X4500 Y0",
    "; layer num/total_layer_count: 16",
    "G1 X4800 Y0",
    "; layer num/total_layer_count: 17",
    "G1 X5100 Y0",
    "; layer num/total_layer_count: 18",
    "G1 X5400 Y0",
    "; layer num/total_layer_count: 19",
    "G1 X5700 Y0",
    "; layer num/total_layer_count: 20",
    "G1 X6000 Y0",
    "; layer num/total_layer_count: 21",
    "G1 X6300 Y0",
    "; layer num/total_layer_count: 22",
    "G1 X6420 Y0",
    "; layer num/total_layer_count: 23"]

/-- Concrete file: like fileDrop50 but with a final span signal of 4 (a 96 percent drop, below the lower threshold). -/
def fileDrop96 : List String :=
  ["; layer num/total_layer_count: 1",
    "G1 X100 Y0",
    "; layer num/total_layer_count: 2",
    "G1 X200 Y0",
    "; layer num/total_layer_count: 3",
    "G1 X300 Y0",
    "; layer num/total_layer_count: 4",
    "G1 X400 Y0",
    "; layer num/total_layer_count: 5",
    "G1 X500 Y0",
    "; layer num/total_layer_count: 6",
    "G1 X600 Y0",
    "; layer num/total_layer_count: 7",
    "G1 X700 Y0",
    "; layer num/total_layer_count: 8",
    "G1 X800 Y0",
    "; layer num/total_layer_count: 9",
    "G1 X900 Y0",
    "; layer num/total_layer_count: 10",
    "G1 X1000 Y0",
    "; layer num/total_layer_count: 11",
    "G1 X1100 Y0",
    "; layer num/total_layer_count: 12",
    "G1 X1200 Y0",
    "; layer num/total_layer_count: 13",
    "G1 X1300 Y0",
    "; layer num/total_layer_count: 14",
    "G1 X1400 Y0",
    "; layer num/total_layer_count: 15",
    "G1 X1500 Y0",
    "; layer num/total_layer_count: 16",
    "G1 X1600 Y0",
    "; layer num/total_layer_count: 17",
    "G1 X1700 Y0",
    "; layer num/total_layer_count: 18",
    "G1 X1800 Y0",
    "; layer num/total_layer_count: 19",
    "G1 X1900 Y0",
    "; layer num/total_layer_count: 20",
    "G1 X2000 Y0",
    "; layer num/total_layer_count: 21",
    "G1 X2100 Y0",
    "; layer num/total_layer_count: 22",
    "G1 X2104 Y0",
    "; layer num/total_layer_count: 23"]

/-- Concrete file for the support-map counterexample: the final layer
contains both the support tag and a non-support feature tag, and no later
boundary ever closes it. -/
def fileBothTags : List String :=
  ["; layer num/total_layer_count: 1",
    "; FEATURE: Support",
    "; FEATURE: Inner wall"]

/-- Concrete file for the layer-0 counterexample: a support tag occurs
before any boundary line. -/
def fileSupportFirst : List String :=
  ["; FEATURE: Support"]

/-- Small concrete file used by witnesses: three boundaries, one move per
layer; the boundary at post-increment counter 2 sees a previous-layer
signal of zero. -/
def fileSmall : List String :=
  ["; layer num/total_layer_count: 1",
    "G1 X100 Y0",
    "; layer num/total_layer_count: 2",
    "G1 X200 Y0",
    "; layer num/total_layer_count: 3"]

set_option maxRecDepth 40000

/-! ## Helper lemmas -/

/-- The per-flagged-layer loop is a left fold of its four-injection body. -/
theorem probLayerLoop_eq_foldl (d m : ℤ) (layers : List ℤ) (ls : List String) :
    probLayerLoop d m ls layers =
      layers.foldl
        (fun a layer =>
          modifyGcodeTemperature
            (modifyGcodeFanSpeed
              (modifyGcodeTemperature
                (modifyGcodeFanSpeed a (layer - 3) FAN_SPEED_PCT_PROB_LAYERS)
                (layer - 3) (d + TEMP_INCREASE_PROB_LAYERS))
              (layer + 2) m)
            (layer + 2) d) ls := by
  induction layers generalizing ls with
  | nil => rfl
  | cons hd tl ih => simp only [probLayerLoop, List.foldl, ih]

/-! ## C2: orchestration around each flagged layer -/

/-- C2: for every flagged layer `L`, in detection order, the orchestrator
applies on the evolving line sequence: fan speed to 1 percent at `L - 3`,
temperature to default + 20 °C at `L - 3`, fan speed to the file's max fan
speed at `L + 2`, temperature to the default at `L + 2`; the offsets and
the 20 °C delta are fixed constants, not functions of the detector's
signal values. -/
theorem c2_orchestration (lines : List String) :
    processLines lines =
      (detectProblematicLayers lines).foldl
        (fun ls layer =>
          modifyGcodeTemperature
            (modifyGcodeFanSpeed
              (modifyGcodeTemperature
                (modifyGcodeFanSpeed ls (layer - 3) 1)
                (layer - 3) (getDefaultTemp lines + 20))
              (layer + 2) (getMaxFanSpeed lines))
            (layer + 2) (getDefaultTemp lines)) lines := by
  show probLayerLoop _ _ _ _ = _
  rw [probLayerLoop_eq_foldl]
  rfl

/-! ## C3: behaviour at a drop of exactly 50 percent -/

/-- C3 counterexample: a concrete sequence whose consecutive layer signals
are 100, 100, 50 ending at the boundary with post-increment counter 22
(a non-support layer above 20); the detector flags nothing, so layer 22
does NOT appear in the flagged list, contrary to the claim. -/
theorem c3_counterexample :
    (21, (100 : ℚ), (100 : ℚ)) ∈ boundaryEvents fileDrop50 ∧
    (22, (50 : ℚ), (100 : ℚ)) ∈ boundaryEvents fileDrop50 ∧
    getMapOfSupportLayers fileDrop50 22 = false ∧
    ((22 : ℤ) ∉ detectProblematicLayers fileDrop50) := by
  with_unfolding_all decide

/-- C3 amended: a drop of exactly 50 percent is NOT flagged (the upper
threshold comparison is strict, and the post-drop signal 50 also fails the
`> 80` signal floor); a 60 percent drop whose post-drop signal exceeds 80
(signals 300, 300, 120) at a non-support layer above 20 IS flagged; a drop
of 96 percent (below the lower bound) is NOT flagged. -/
theorem c3_amended :
    detectProblematicLayers fileDrop50 = [] ∧
    ((22, (120 : ℚ), (300 : ℚ)) ∈ boundaryEvents fileDrop60 ∧
      detectProblematicLayers fileDrop60 = [22]) ∧
    ((22, (4 : ℚ), (100 : ℚ)) ∈ boundaryEvents fileDrop96 ∧
      detectProblematicLayers fileDrop96 = []) := by
  with_unfolding_all decide

/-! ## C4 / C8 counterexamples for the support-only map -/

/-- C4 counterexample: the final layer of `fileBothTags` contains both the
support tag and a non-support feature tag, yet the map classifies it as
support-only (the correcting write only happens at the next boundary, and
no boundary follows). -/
theorem c4_counterexample :
    "; FEATURE: Support" ∈ layerSpan fileBothTags 1 ∧
    "; FEATURE: Inner wall" ∈ layerSpan fileBothTags 1 ∧
    isOtherFeatureLine "; FEATURE: Inner wall" = true ∧
    getMapOfSupportLayers fileBothTags 1 = true := by
  with_unfolding_all decide

/-- C8 counterexample: a support feature tag before the first boundary
marks layer 0 support-only, contrary to the claim that key 0 is never
mapped to true. -/
theorem c8_counterexample :
    countLayers fileSupportFirst = 0 ∧
    getMapOfSupportLayers fileSupportFirst 0 = true := by
  with_unfolding_all decide

/-! ## C6: fan-speed percent rescaling -/

/-- C6: the fan-speed injector's 0-255 value is `percent / 100 * 255`
truncated toward zero; on nonnegative percentages this is the floor, and
0, 100, 50 map to 0, 255, 127. -/
theorem c6_fan_rescale :
    (∀ p : ℤ, 0 ≤ p → fanSpeedValue p = ⌊(p : ℚ) / 100 * 255⌋) ∧
    fanSpeedValue 0 = 0 ∧ fanSpeedValue 100 = 255 ∧ fanSpeedValue 50 = 127 := by
  refine ⟨fun p hp => ?_, ?_, ?_, ?_⟩
  · have hq : (0 : ℚ) ≤ (p : ℚ) / 100 * 255 := by
      have hp' : (0 : ℚ) ≤ (p : ℚ) := by exact_mod_cast hp
      positivity
    simp only [fanSpeedValue]
    rw [if_pos hq]
  · norm_num [fanSpeedValue]
  · norm_num [fanSpeedValue]
  · have h : ((50 : ℤ) : ℚ) / 100 * 255 = 255 / 2 := by norm_num
    simp only [fanSpeedValue, h]
    rw [if_pos (by norm_num), Int.floor_eq_iff]
    norm_num

/-- Witness for C6 at the concrete percentage 30. -/
theorem c6_fan_rescale_witness :
    (0 : ℤ) ≤ 30 ∧ fanSpeedValue 30 = ⌊((30 : ℤ) : ℚ) / 100 * 255⌋ :=
  ⟨by decide, c6_fan_rescale.1 30 (by decide)⟩

/-! ## C10: state carried across a layer boundary -/

/-- C10: the boundary branch of the tracker does not reset `extruding` or
the last coordinate pair (only the signal accumulator); hence the first
movement line with both X and Y after a boundary contributes the planar
distance from the previous layer's last point to the NEW layer's signal. -/
theorem c10_cross_layer_travel (s : TrackState) (b m : String)
    (hb : detectLayerChange b = true)
    (hmb : detectLayerChange m = false)
    (hg : strStartsWith "G1" m = true)
    (hx : (extractXY m).hasX = true)
    (hy : (extractXY m).hasY = true)
    (he : s.extruding = true) :
    (trackStep s b).extruding = true ∧
    (trackStep s b).lastX = s.lastX ∧
    (trackStep s b).lastY = s.lastY ∧
    (trackStep s b).currentPerimeterLength = 0 ∧
    (trackStep (trackStep s b) m).currentPerimeterLength =
      calculateDistance s.lastX s.lastY (extractXY m).x (extractXY m).y := by
  simp only [trackStep, hb, if_true, hmb, Bool.false_eq_true, if_false, hg, hx, hy,
    Bool.and_self, if_true, he]
  simp [he, zero_add]

/-- Witness for C10: after a boundary, the single move `G1 X103 Y4` from
last point (100, 0) contributes distance 5 to the fresh layer signal. -/
theorem c10_cross_layer_travel_witness :
    ((trackStep (trackStep ⟨5, 30, 40, 100, 0, true⟩
        "; layer num/total_layer_count: 7") "G1 X103 Y4").currentPerimeterLength =
      calculateDistance 100 0 (extractXY "G1 X103 Y4").x (extractXY "G1 X103 Y4").y) ∧
    calculateDistance 100 0 103 4 = 5 := by
  constructor
  · exact (c10_cross_layer_travel ⟨5, 30, 40, 100, 0, true⟩ _ _ (by decide) (by decide)
      (by decide) (by with_unfolding_all decide) (by with_unfolding_all decide) rfl).2.2.2.2
  · with_unfolding_all decide

/-! ## Injector walk lemmas -/

/-- Unfolding `countLayers` over a cons cell. -/
theorem countLayers_cons (l : String) (ls : List String) :
    countLayers (l :: ls) = (if detectLayerChange l then 1 else 0) + countLayers ls := by
  simp only [countLayers, List.filter_cons]
  split <;> simp [Nat.add_comm]

/-- Once the walk counter has reached the target, no later post-increment
value can match, so the walk copies the rest unchanged. -/
theorem injectWalk_of_le (ins : String) (L : ℤ) :
    ∀ (ls : List String) (cl : ℤ), L ≤ cl → injectWalk ins L cl ls = ls := by
  intro ls
  induction ls with
  | nil => intro cl _; rfl
  | cons l rest ih =>
    intro cl h
    by_cases hl : detectLayerChange l
    · have hne : ¬(cl + 1 = L) := by omega
      simp [injectWalk, hl, hne, ih (cl + 1) (by omega)]
    · simp [injectWalk, hl, ih cl h]

/-- If the target layer number is outside the range of post-increment
counter values produced by the remaining lines, the walk is the identity. -/
theorem injectWalk_miss (ins : String) (L : ℤ) :
    ∀ (ls : List String) (cl : ℤ),
      ¬(cl < L ∧ L ≤ cl + (countLayers ls : ℤ)) → injectWalk ins L cl ls = ls := by
  intro ls
  induction ls with
  | nil => intro cl _; rfl
  | cons l rest ih =>
    intro cl h
    rw [countLayers_cons] at h
    by_cases hl : detectLayerChange l
    · rw [if_pos hl] at h
      push_cast at h
      have hne : ¬(cl + 1 = L) := by omega
      have h' : ¬(cl + 1 < L ∧ L ≤ cl + 1 + (countLayers rest : ℤ)) := by omega
      simp [injectWalk, hl, hne, ih (cl + 1) h']
    · rw [if_neg hl] at h
      push_cast at h
      have h' : ¬(cl < L ∧ L ≤ cl + (countLayers rest : ℤ)) := by omega
      simp [injectWalk, hl, ih cl h']

/-- If the target layer number is inside the range of post-increment
counter values, the walk inserts the synthesized line exactly once, at some
position, leaving every original line in place and in order. -/
theorem injectWalk_hit (ins : String) (L : ℤ) :
    ∀ (ls : List String) (cl : ℤ), cl < L → L ≤ cl + (countLayers ls : ℤ) →
      ∃ k, k ≤ ls.length ∧ injectWalk ins L cl ls = ls.take k ++ ins :: ls.drop k := by
  intro ls
  induction ls with
  | nil =>
    intro cl h1 h2
    simp [countLayers] at h2
    omega
  | cons l rest ih =>
    intro cl h1 h2
    rw [countLayers_cons] at h2
    by_cases hl : detectLayerChange l
    · rw [if_pos hl] at h2
      push_cast at h2
      by_cases he : cl + 1 = L
      · refine ⟨1, by simp, ?_⟩
        simp [injectWalk, hl, he, injectWalk_of_le ins L rest L (le_refl L)]
      · obtain ⟨k, hk, heq⟩ := ih (cl + 1) (by omega) (by omega)
        refine ⟨k + 1, by simpa using hk, ?_⟩
        simp [injectWalk, hl, he, heq]
    · rw [if_neg hl] at h2
      push_cast at h2
      obtain ⟨k, hk, heq⟩ := ih cl h1 (by omega)
      refine ⟨k + 1, by simpa using hk, ?_⟩
      simp [injectWalk, hl, heq]

/-! ## C5: injection at an absent layer index is the identity -/

/-- C5: when the requested layer index matches no boundary's
post-increment counter (the counters are exactly 0, …, countLayers − 1),
both injectors return the input sequence unchanged; no line is inserted
and no error path exists (the functions are total). -/
theorem c5_injection_miss (lines : List String) (L v p : ℤ)
    (h : ∀ k : ℕ, k < countLayers lines → (k : ℤ) ≠ L) :
    modifyGcodeTemperature lines L v = lines ∧
    modifyGcodeFanSpeed lines L p = lines := by
  have hm : ¬((-1 : ℤ) < L ∧ L ≤ -1 + (countLayers lines : ℤ)) := by
    rintro ⟨h1, h2⟩
    have hk : L.toNat < countLayers lines := by omega
    exact h L.toNat hk (by omega)
  exact ⟨injectWalk_miss _ _ lines (-1) hm, injectWalk_miss _ _ lines (-1) hm⟩

/-- Witness for C5: `fileSmall` has 3 layers; injecting at layer 99 is the
identity for both injectors. -/
theorem c5_injection_miss_witness :
    (∀ k : ℕ, k < countLayers fileSmall → (k : ℤ) ≠ 99) ∧
    modifyGcodeTemperature fileSmall 99 210 = fileSmall ∧
    modifyGcodeFanSpeed fileSmall 99 75 = fileSmall := by
  have h : ∀ k : ℕ, k < countLayers fileSmall → (k : ℤ) ≠ 99 := by decide
  exact ⟨h, (c5_injection_miss fileSmall 99 210 75 h).1,
    (c5_injection_miss fileSmall 99 210 75 h).2⟩

/-! ## C9: each injection inserts at most one line, preserving the rest -/

/-- C9: each injector returns the input lines with at most one synthesized
line inserted at a single position — exactly one when the layer index
matches some boundary's post-increment counter (equivalently,
`0 ≤ L < countLayers`), and none otherwise; the original lines are kept in
their original relative order (and the input itself, being a Lean value,
is unchanged — the Go code likewise builds a fresh slice). -/
theorem c9_injection_frame (lines : List String) (L v p : ℤ) :
    (∃ k, k ≤ lines.length ∧
      modifyGcodeTemperature lines L v =
        lines.take k ++
          (if 0 ≤ L ∧ L < (countLayers lines : ℤ) then [mkTempLine v L] else []) ++
          lines.drop k) ∧
    (∃ k, k ≤ lines.length ∧
      modifyGcodeFanSpeed lines L p =
        lines.take k ++
          (if 0 ≤ L ∧ L < (countLayers lines : ℤ) then
            [mkFanLine (fanSpeedValue p) p L] else []) ++
          lines.drop k) := by
  by_cases hc : 0 ≤ L ∧ L < (countLayers lines : ℤ)
  · obtain ⟨k, hk, heq⟩ :=
      injectWalk_hit (mkTempLine v L) L lines (-1) (by omega) (by omega)
    obtain ⟨k2, hk2, heq2⟩ :=
      injectWalk_hit (mkFanLine (fanSpeedValue p) p L) L lines (-1) (by omega) (by omega)
    rw [if_pos hc, if_pos hc]
    exact ⟨⟨k, hk, by simpa [modifyGcodeTemperature] using heq⟩,
      ⟨k2, hk2, by simpa [modifyGcodeFanSpeed] using heq2⟩⟩
  · have hm : ¬((-1 : ℤ) < L ∧ L ≤ -1 + (countLayers lines : ℤ)) := by omega
    rw [if_neg hc, if_neg hc]
    refine ⟨⟨0, by simp, ?_⟩, ⟨0, by simp, ?_⟩⟩
    · simpa [modifyGcodeTemperature] using injectWalk_miss _ _ lines (-1) hm
    · simpa [modifyGcodeFanSpeed] using injectWalk_miss _ _ lines (-1) hm

/-! ## Support-map fold characterization -/

/-- The support fold never writes keys below the running layer counter. -/
theorem supportFold_m_lt :
    ∀ (lines : List String) (s : SupportState) (k : ℤ), k < s.currentLayer →
      (lines.foldl supportStep s).m k = s.m k := by
  intro lines
  induction lines with
  | nil => intro s k _; rfl
  | cons l rest ih =>
    intro s k hk
    rw [List.foldl_cons]
    by_cases hl : detectLayerChange l
    · have h1 : k ≠ s.currentLayer + 1 := by omega
      have h2 : k ≠ s.currentLayer := by omega
      rw [ih (supportStep s l) k (by simp [supportStep, hl]; omega)]
      cases hoF : s.hasOtherFeature <;>
        simp [supportStep, hl, hoF, updateMap, h1, h2]
    · by_cases ho : isOtherFeatureLine l
      · rw [ih (supportStep s l) k (by simp [supportStep, hl, ho]; omega)]
        simp [supportStep, hl, ho]
      · by_cases hs : l = "; FEATURE: Support"
        · have h2 : k ≠ s.currentLayer := by omega
          have hstep : supportStep s l = { s with m := updateMap s.m s.currentLayer true } := by
            simp only [supportStep]
            rw [if_neg (by simpa using hl), if_neg (by simpa using ho), if_pos hs]
          rw [hstep, ih { s with m := updateMap s.m s.currentLayer true } k hk]
          simp [updateMap, h2]
        · have hstep : supportStep s l = s := by
            simp only [supportStep]
            rw [if_neg (by simpa using hl), if_neg (by simpa using ho), if_neg hs]
          rw [hstep, ih s k hk]

/-- The exact support tag is not itself a non-support feature line. -/
theorem isOtherFeatureLine_tag : isOtherFeatureLine "; FEATURE: Support" = false := by decide

/-- `spanSupp` over a cons cell. -/
theorem spanSupp_cons (l : String) (ls : List String) :
    spanSupp (l :: ls) = (decide (l = "; FEATURE: Support") || spanSupp ls) := by
  simp [spanSupp]

/-- `spanOther` over a cons cell. -/
theorem spanOther_cons (l : String) (ls : List String) :
    spanOther (l :: ls) = (isOtherFeatureLine l || spanOther ls) := by
  simp [spanOther]

/-- Value of the support fold at the running layer counter itself: the
layer is still open, so it is support-only iff a support tag has been seen
(in the incoming map value or the open span), except that a pending or
newly seen non-support feature forces `false` as soon as a boundary closes
the layer. -/
theorem supportFold_m_self :
    ∀ (lines : List String) (s : SupportState),
      (lines.foldl supportStep s).m s.currentLayer =
        if countLayers lines = 0 then
          s.m s.currentLayer || spanSupp (layerSpan lines 0)
        else if s.hasOtherFeature || spanOther (layerSpan lines 0) then false
        else s.m s.currentLayer || spanSupp (layerSpan lines 0) := by
  intro lines
  induction lines with
  | nil =>
    intro s
    simp [countLayers, layerSpan, dropBoundaries, spanSupp]
  | cons l rest ih =>
    intro s
    rw [List.foldl_cons]
    by_cases hl : detectLayerChange l
    · have hstep : supportStep s l =
          { m := updateMap
              (if s.hasOtherFeature then updateMap s.m s.currentLayer false else s.m)
              (s.currentLayer + 1) false
            currentLayer := s.currentLayer + 1
            hasOtherFeature := false } := by
        simp only [supportStep]
        rw [if_pos hl]
      have hne : s.currentLayer ≠ s.currentLayer + 1 := by omega
      rw [hstep, supportFold_m_lt rest _ s.currentLayer (lt_add_one s.currentLayer)]
      have hcount : countLayers (l :: rest) ≠ 0 := by
        rw [countLayers_cons, if_pos hl]; omega
      have hspan : layerSpan (l :: rest) 0 = [] := by
        simp [layerSpan, dropBoundaries, List.takeWhile_cons, hl]
      rw [if_neg hcount, hspan]
      cases hoF : s.hasOtherFeature <;>
        simp [updateMap, spanSupp, spanOther, hoF, hne]
    · by_cases ho : isOtherFeatureLine l
      · have hstep : supportStep s l = { s with hasOtherFeature := true } := by
          simp only [supportStep]
          rw [if_neg (by simpa using hl), if_pos ho]
        have hltag : l ≠ "; FEATURE: Support" := by
          intro he
          rw [he, isOtherFeatureLine_tag] at ho
          exact absurd ho (by simp)
        have hcount : countLayers (l :: rest) = countLayers rest := by
          rw [countLayers_cons, if_neg hl]; omega
        have hspan : layerSpan (l :: rest) 0 = l :: layerSpan rest 0 := by
          simp [layerSpan, dropBoundaries, List.takeWhile_cons, hl]
        rw [hstep, ih { s with hasOtherFeature := true }, hcount, hspan,
          spanSupp_cons, spanOther_cons]
        simp only [ho, Bool.true_or, Bool.or_true, hltag, decide_eq_true_eq,
          decide_False, Bool.false_or]
      · by_cases hs : l = "; FEATURE: Support"
        · have hstep : supportStep s l =
              { s with m := updateMap s.m s.currentLayer true } := by
            simp only [supportStep]
            rw [if_neg (by simpa using hl), if_neg (by simpa using ho), if_pos hs]
          have hcount : countLayers (l :: rest) = countLayers rest := by
            rw [countLayers_cons, if_neg hl]; omega
          have hspan : layerSpan (l :: rest) 0 = l :: layerSpan rest 0 := by
            simp [layerSpan, dropBoundaries, List.takeWhile_cons, hl]
          rw [hstep, ih { s with m := updateMap s.m s.currentLayer true }, hcount, hspan,
            spanSupp_cons, spanOther_cons]
          have hoth : isOtherFeatureLine l = false := by simpa using ho
          simp only [hs, decide_True, Bool.true_or, Bool.or_true, hoth, Bool.false_or]
          simp [updateMap, isOtherFeatureLine_tag]
        · have hstep : supportStep s l = s := by
            simp only [supportStep]
            rw [if_neg (by simpa using hl), if_neg (by simpa using ho), if_neg hs]
          have hcount : countLayers (l :: rest) = countLayers rest := by
            rw [countLayers_cons, if_neg hl]; omega
          have hspan : layerSpan (l :: rest) 0 = l :: layerSpan rest 0 := by
            simp [layerSpan, dropBoundaries, List.takeWhile_cons, hl]
          have hoth : isOtherFeatureLine l = false := by simpa using ho
          rw [hstep, ih s, hcount, hspan, spanSupp_cons, spanOther_cons]
          simp [hs, hoth]

/-- Value of the support fold `j ≥ 1` layers above the running counter:
inside the produced range it is the closed-layer classification
(support tag present and no other feature), except for the final, still
open layer, where a pending other-feature has not yet been applied;
outside the range the incoming map is untouched. -/
theorem supportFold_m_gt :
    ∀ (lines : List String) (s : SupportState) (j : ℕ), 1 ≤ j →
      (lines.foldl supportStep s).m (s.currentLayer + (j : ℤ)) =
        if j ≤ countLayers lines then
          (if j = countLayers lines then spanSupp (layerSpan lines j)
           else spanSupp (layerSpan lines j) && !spanOther (layerSpan lines j))
        else s.m (s.currentLayer + (j : ℤ)) := by
  intro lines
  induction lines with
  | nil =>
    intro s j hj
    have hno : ¬(j ≤ countLayers ([] : List String)) := by
      simp [countLayers]
      omega
    rw [List.foldl_nil, if_neg hno]
  | cons l rest ih =>
    intro s j hj
    rw [List.foldl_cons]
    by_cases hl : detectLayerChange l
    · have hstep : supportStep s l =
          { m := updateMap
              (if s.hasOtherFeature then updateMap s.m s.currentLayer false else s.m)
              (s.currentLayer + 1) false
            currentLayer := s.currentLayer + 1
            hasOtherFeature := false } := by
        simp only [supportStep]
        rw [if_pos hl]
      have hcnt : countLayers (l :: rest) = countLayers rest + 1 := by
        rw [countLayers_cons, if_pos hl]; omega
      have hspan : ∀ j' : ℕ, layerSpan (l :: rest) (j' + 1) = layerSpan rest j' := by
        intro j'
        simp [layerSpan, dropBoundaries, hl]
      by_cases hj1 : j = 1
      · have hself : (List.foldl supportStep
            ⟨updateMap
              (if s.hasOtherFeature then updateMap s.m s.currentLayer false else s.m)
              (s.currentLayer + 1) false, s.currentLayer + 1, false⟩ rest).m
              (s.currentLayer + 1) =
            (if countLayers rest = 0 then spanSupp (layerSpan rest 0)
             else if spanOther (layerSpan rest 0) then false
             else spanSupp (layerSpan rest 0)) := by
          rw [supportFold_m_self rest
            ⟨updateMap
              (if s.hasOtherFeature then updateMap s.m s.currentLayer false else s.m)
              (s.currentLayer + 1) false, s.currentLayer + 1, false⟩]
          simp [updateMap]
        have hspan0 : layerSpan (l :: rest) 1 = layerSpan rest 0 := hspan 0
        rw [hstep]
        simp only [hj1, Nat.cast_one]
        rw [hself, hcnt, hspan0]
        rw [if_pos (by omega : (1 : ℕ) ≤ countLayers rest + 1)]
        by_cases hz : countLayers rest = 0
        · rw [if_pos (by omega : (1 : ℕ) = countLayers rest + 1), if_pos hz]
        · rw [if_neg (by omega : ¬(1 : ℕ) = countLayers rest + 1), if_neg hz]
          cases hsp : spanOther (layerSpan rest 0) <;> simp [hsp]
      · obtain ⟨j2, rfl⟩ : ∃ j2, j = j2 + 2 := ⟨j - 2, by omega⟩
        have hkey : s.currentLayer + ((j2 + 2 : ℕ) : ℤ) =
            s.currentLayer + 1 + ((j2 + 1 : ℕ) : ℤ) := by push_cast; ring
        have hspan2 : layerSpan (l :: rest) (j2 + 2) = layerSpan rest (j2 + 1) :=
          hspan (j2 + 1)
        have hih : (List.foldl supportStep
            ⟨updateMap
              (if s.hasOtherFeature then updateMap s.m s.currentLayer false else s.m)
              (s.currentLayer + 1) false, s.currentLayer + 1, false⟩ rest).m
              (s.currentLayer + 1 + ((j2 + 1 : ℕ) : ℤ)) =
            (if j2 + 1 ≤ countLayers rest then
              (if j2 + 1 = countLayers rest then spanSupp (layerSpan rest (j2 + 1))
               else spanSupp (layerSpan rest (j2 + 1)) &&
                 !spanOther (layerSpan rest (j2 + 1)))
            else updateMap
              (if s.hasOtherFeature then updateMap s.m s.currentLayer false else s.m)
              (s.currentLayer + 1) false (s.currentLayer + 1 + ((j2 + 1 : ℕ) : ℤ))) :=
          ih ⟨updateMap
              (if s.hasOtherFeature then updateMap s.m s.currentLayer false else s.m)
              (s.currentLayer + 1) false, s.currentLayer + 1, false⟩ (j2 + 1) (by omega)
        rw [hstep, hkey, hih, hcnt, hspan2]
        by_cases hle : j2 + 1 ≤ countLayers rest
        · rw [if_pos hle, if_pos (by omega : j2 + 2 ≤ countLayers rest + 1)]
          by_cases heq2 : j2 + 1 = countLayers rest
          · rw [if_pos heq2, if_pos (by omega : j2 + 2 = countLayers rest + 1)]
          · rw [if_neg heq2, if_neg (by omega : ¬j2 + 2 = countLayers rest + 1)]
        · rw [if_neg hle, if_neg (by omega : ¬j2 + 2 ≤ countLayers rest + 1)]
          have hne1 : s.currentLayer + 1 + ((j2 + 1 : ℕ) : ℤ) ≠ s.currentLayer + 1 := by
            push_cast; omega
          have hne2 : s.currentLayer + 1 + ((j2 + 1 : ℕ) : ℤ) ≠ s.currentLayer := by
            push_cast; omega
          have hd1 : ¬((j2 : ℤ) + 1 = 0) := by omega
          have hd2 : ¬(s.currentLayer + 1 + ((j2 : ℤ) + 1) = s.currentLayer) := by omega
          cases hoF : s.hasOtherFeature <;> simp [hoF, updateMap, hne1, hne2, hd1, hd2]
    · have hcl : (supportStep s l).currentLayer = s.currentLayer := by
        simp only [supportStep]
        rw [if_neg (by simpa using hl)]
        split_ifs <;> rfl
      have hm : (supportStep s l).m (s.currentLayer + (j : ℤ)) =
          s.m (s.currentLayer + (j : ℤ)) := by
        have hne : s.currentLayer + (j : ℤ) ≠ s.currentLayer := by omega
        simp only [supportStep]
        rw [if_neg (by simpa using hl)]
        split_ifs <;> simp [updateMap, hne]
      have hcnt : countLayers (l :: rest) = countLayers rest := by
        rw [countLayers_cons, if_neg hl]; omega
      have hspan : layerSpan (l :: rest) j = layerSpan rest j := by
        obtain ⟨j1, rfl⟩ : ∃ j1, j = j1 + 1 := ⟨j - 1, by omega⟩
        simp [layerSpan, dropBoundaries, hl]
      rw [show s.currentLayer + (j : ℤ) = (supportStep s l).currentLayer + (j : ℤ) from by
        rw [hcl]]
      rw [ih (supportStep s l) j hj, hcl, hm, hcnt, hspan]

/-- Closed layers (each followed by a later boundary) are classified
support-only iff their span contains the support tag and no non-support
feature line. -/
theorem getMapOfSupportLayers_closed (lines : List String) (k : ℕ)
    (hk : k < countLayers lines) :
    getMapOfSupportLayers lines (k : ℤ) =
      (spanSupp (layerSpan lines k) && !spanOther (layerSpan lines k)) := by
  show (List.foldl supportStep initSupport lines).m (k : ℤ) = _
  by_cases hk0 : k = 0
  · have h0 : (List.foldl supportStep initSupport lines).m 0 =
        (if countLayers lines = 0 then false || spanSupp (layerSpan lines 0)
         else if false || spanOther (layerSpan lines 0) then false
         else false || spanSupp (layerSpan lines 0)) :=
      supportFold_m_self lines initSupport
    rw [hk0, Nat.cast_zero, h0, if_neg (by omega)]
    cases h1 : spanOther (layerSpan lines 0) <;> simp [h1]
  · obtain ⟨j, rfl⟩ : ∃ j, k = j + 1 := ⟨k - 1, by omega⟩
    have h0 : (List.foldl supportStep initSupport lines).m (0 + ((j + 1 : ℕ) : ℤ)) =
        (if j + 1 ≤ countLayers lines then
          (if j + 1 = countLayers lines then spanSupp (layerSpan lines (j + 1))
           else spanSupp (layerSpan lines (j + 1)) &&
             !spanOther (layerSpan lines (j + 1)))
        else false) :=
      supportFold_m_gt lines initSupport (j + 1) (by omega)
    rw [show ((j + 1 : ℕ) : ℤ) = 0 + ((j + 1 : ℕ) : ℤ) from (zero_add _).symm, h0,
      if_pos (by omega), if_neg (by omega)]

/-! ## C4: support-only classification -/

/-- C4 amended: restricted to layers that are closed by a later boundary
line, the map classifies a layer as support-only iff some line of the
layer is exactly the support feature tag and no line of the layer is a
feature tag naming a non-support feature.  (The original claim fails only
for the final, never-closed layer: see the counterexample.) -/
theorem c4_amended (lines : List String) (k : ℕ) (hk : k < countLayers lines) :
    (getMapOfSupportLayers lines (k : ℤ) = true ↔
      ((∃ l ∈ layerSpan lines k, l = "; FEATURE: Support") ∧
       ∀ l ∈ layerSpan lines k, isOtherFeatureLine l = false)) := by
  rw [getMapOfSupportLayers_closed lines k hk]
  simp [spanSupp, spanOther]

/-- Witness for C4 amended: layer 1 of `fileSmall` is closed, contains no
support tag, and is classified not support-only. -/
theorem c4_amended_witness :
    1 < countLayers fileSmall ∧
    (getMapOfSupportLayers fileSmall ((1 : ℕ) : ℤ) = true ↔
      ((∃ l ∈ layerSpan fileSmall 1, l = "; FEATURE: Support") ∧
       ∀ l ∈ layerSpan fileSmall 1, isOtherFeatureLine l = false)) :=
  ⟨by decide, c4_amended fileSmall 1 (by decide)⟩

/-! ## C8: layer 0 and the support-only map -/

/-- C8 amended: the map sends key 0 to true exactly when a support tag
occurs before the first boundary and, in case at least one boundary
exists, no non-support feature tag occurs before the first boundary
(with no boundary at all, the correcting write never happens and a
support tag alone suffices). -/
theorem c8_amended (lines : List String) :
    (getMapOfSupportLayers lines 0 = true ↔
      ((∃ l ∈ layerSpan lines 0, l = "; FEATURE: Support") ∧
       (countLayers lines = 0 ∨
         ∀ l ∈ layerSpan lines 0, isOtherFeatureLine l = false))) := by
  have h0 : (List.foldl supportStep initSupport lines).m 0 =
      (if countLayers lines = 0 then false || spanSupp (layerSpan lines 0)
       else if false || spanOther (layerSpan lines 0) then false
       else false || spanSupp (layerSpan lines 0)) :=
    supportFold_m_self lines initSupport
  show (List.foldl supportStep initSupport lines).m 0 = true ↔ _
  rw [h0]
  by_cases hz : countLayers lines = 0
  · rw [if_pos hz]
    simp [hz, spanSupp]
  · rw [if_neg hz]
    cases hso : spanOther (layerSpan lines 0) <;>
      simp [hso, hz, spanSupp, spanOther] at * <;> tauto

/-! ## Detector fusion with the declarative filter -/

/-- The events fold only ever appends to its accumulator. -/
theorem eventsFold_shift :
    ∀ (lines : List String) (s : TrackState) (acc : List (ℤ × ℚ × ℚ)),
      (lines.foldl eventsStep (s, acc)).2 = acc ++ (lines.foldl eventsStep (s, [])).2 := by
  intro lines
  induction lines with
  | nil => intro s acc; simp
  | cons l rest ih =>
    intro s acc
    rw [List.foldl_cons, List.foldl_cons]
    by_cases hl : detectLayerChange l
    · simp only [eventsStep, hl, if_true]
      rw [ih (trackStep s l)
        (acc ++ [(s.currentLayer + 1, s.currentPerimeterLength,
          s.previousPerimeterLength)]),
        ih (trackStep s l)
        ([] ++ [(s.currentLayer + 1, s.currentPerimeterLength,
          s.previousPerimeterLength)])]
      simp
    · simp only [eventsStep, hl, Bool.false_eq_true, if_false]
      exact ih (trackStep s l) acc

/-- Unfolding the boundary events over a cons cell. -/
theorem boundaryEventsFrom_cons (s : TrackState) (l : String) (rest : List String) :
    boundaryEventsFrom s (l :: rest) =
      (if detectLayerChange l then
        [(s.currentLayer + 1, s.currentPerimeterLength, s.previousPerimeterLength)]
      else []) ++ boundaryEventsFrom (trackStep s l) rest := by
  unfold boundaryEventsFrom
  rw [List.foldl_cons]
  by_cases hl : detectLayerChange l
  · rw [if_pos hl]
    simp only [eventsStep, hl, if_true]
    rw [eventsFold_shift rest (trackStep s l)]
    simp
  · rw [if_neg hl]
    simp only [eventsStep, hl, Bool.false_eq_true, if_false]
    simp

/-- The source's nested flag conditionals equal the claim's single flat
conjunction. -/
theorem boundaryFlag_eq_claimFlag (support : ℤ → Bool) (cl : ℤ) (cur prev : ℚ) :
    boundaryFlag support cl cur prev = claimFlag support (cl, cur, prev) := by
  simp only [boundaryFlag, claimFlag, PERIM_PCT_CHG_UPPER, PERIM_PCT_CHG_LOWER,
    MIN_PROB_LAYER]
  split_ifs with h1 h2 h3
  · symm
    rw [decide_eq_true_eq]
    exact ⟨h1, h2.1, h2.2.1, h2.2.2, h3.1, h3.2⟩
  · symm
    rw [decide_eq_false_iff_not]
    rintro ⟨-, -, -, -, ha, hb⟩
    exact h3 ⟨ha, hb⟩
  · symm
    rw [decide_eq_false_iff_not]
    rintro ⟨-, ha, hb, hc, -, -⟩
    exact h2 ⟨ha, hb, hc⟩
  · symm
    rw [decide_eq_false_iff_not]
    rintro ⟨ha, -⟩
    exact h1 ha

/-- Fusion: the detector's flag list is the filtered projection of the
boundary events. -/
theorem detectFold_eq (support : ℤ → Bool) :
    ∀ (lines : List String) (s : TrackState) (probs : List ℤ),
      (lines.foldl (detectStep support) (s, probs)).2 =
        probs ++ ((boundaryEventsFrom s lines).filter (claimFlag support)).map
          (fun e => e.1) := by
  intro lines
  induction lines with
  | nil => intro s probs; simp [boundaryEventsFrom]
  | cons l rest ih =>
    intro s probs
    rw [List.foldl_cons, boundaryEventsFrom_cons]
    by_cases hl : detectLayerChange l
    · rw [if_pos hl]
      simp only [detectStep, hl, if_true]
      rw [boundaryFlag_eq_claimFlag]
      cases hf : claimFlag support
          (s.currentLayer + 1, s.currentPerimeterLength, s.previousPerimeterLength)
      · simp only [Bool.false_eq_true, if_false]
        rw [ih (trackStep s l) probs]
        simp [hf]
      · simp only [if_true]
        rw [ih (trackStep s l) (probs ++ [s.currentLayer + 1])]
        simp [hf]
    · rw [if_neg hl]
      simp only [detectStep, hl, Bool.false_eq_true, if_false]
      rw [ih (trackStep s l) probs]
      simp

/-- The boundary counter is bumped exactly at boundary lines. -/
theorem trackStep_currentLayer (s : TrackState) (l : String) :
    (trackStep s l).currentLayer =
      if detectLayerChange l then s.currentLayer + 1 else s.currentLayer := by
  by_cases hl : detectLayerChange l
  · simp [trackStep, hl]
  · simp only [trackStep, hl, Bool.false_eq_true, if_false]
    split_ifs <;> rfl

/-- The first components of the boundary events are the consecutive
post-increment counter values. -/
theorem eventsFrom_map_fst :
    ∀ (lines : List String) (s : TrackState),
      (boundaryEventsFrom s lines).map (fun e => e.1) =
        (List.range (countLayers lines)).map
          (fun i : ℕ => s.currentLayer + 1 + (i : ℤ)) := by
  intro lines
  induction lines with
  | nil => intro s; simp [boundaryEventsFrom, countLayers]
  | cons l rest ih =>
    intro s
    rw [boundaryEventsFrom_cons, countLayers_cons]
    by_cases hl : detectLayerChange l
    · rw [if_pos hl, if_pos hl]
      have htr : (trackStep s l).currentLayer = s.currentLayer + 1 := by
        rw [trackStep_currentLayer, if_pos hl]
      rw [List.map_append, ih (trackStep s l), htr,
        show 1 + countLayers rest = countLayers rest + 1 from by omega,
        List.range_succ_eq_map, List.map_cons, List.map_cons, List.map_nil,
        List.map_map, List.singleton_append]
      congr 1
      · simp
      · refine List.map_congr_left fun i _ => ?_
        simp only [Function.comp_apply]
        push_cast
        ring
    · rw [if_neg hl, if_neg hl]
      have htr : (trackStep s l).currentLayer = s.currentLayer := by
        rw [trackStep_currentLayer, if_neg hl]
      rw [List.nil_append, ih (trackStep s l), htr]
      simp [Nat.zero_add]

/-- The detector equals its declarative specification. -/
theorem detectWith_eq_spec (support : ℤ → Bool) (lines : List String) :
    detectProblematicLayersWith support lines = detectSpec support lines := by
  unfold detectProblematicLayersWith detectSpec boundaryEvents
  rw [detectFold_eq support lines initTrack []]
  simp

/-- The first components of a file's boundary events, from the initial
state: exactly 0, 1, …, countLayers − 1. -/
theorem boundaryEvents_map_fst (lines : List String) :
    (boundaryEvents lines).map (fun e => e.1) =
      (List.range (countLayers lines)).map (fun i : ℕ => (-1 : ℤ) + 1 + (i : ℤ)) :=
  eventsFrom_map_fst lines initTrack

/-- Boundary events have strictly increasing first components. -/
theorem boundaryEvents_pairwise (lines : List String) :
    List.Pairwise (fun a b : ℤ × ℚ × ℚ => a.1 < b.1) (boundaryEvents lines) := by
  rw [← List.pairwise_map (f := fun e : ℤ × ℚ × ℚ => e.1), boundaryEvents_map_fst,
    List.pairwise_map]
  exact (List.pairwise_lt_range _).imp (fun h => by omega)

/-- The detector output is strictly increasing. -/
theorem detectWith_pairwise (support : ℤ → Bool) (lines : List String) :
    List.Pairwise (fun a b : ℤ => a < b) (detectProblematicLayersWith support lines) := by
  rw [detectWith_eq_spec]
  unfold detectSpec
  rw [List.pairwise_map]
  exact List.Pairwise.sublist (List.filter_sublist _) (boundaryEvents_pairwise lines)

/-! ## C1: the detector's output, characterized -/

/-- C1: the detector returns exactly the post-increment counter values `L`
of the boundary lines (evaluated only when `L > 1`) whose percent change
`(current − previous) / previous * 100` lies strictly between −95 and −50,
whose current-layer signal exceeds 80, with `L > 20` and layer `L` not
support-only — in ascending (detection) order. -/
theorem c1_detector_characterization (lines : List String) :
    detectProblematicLayers lines =
      detectSpec (getMapOfSupportLayers lines) lines ∧
    List.Pairwise (fun a b : ℤ => a < b) (detectProblematicLayers lines) :=
  ⟨detectWith_eq_spec (getMapOfSupportLayers lines) lines,
    detectWith_pairwise (getMapOfSupportLayers lines) lines⟩

/-! ## C7: zero previous signal never flags and never faults -/

/-- C7: at every boundary crossing whose previous-layer signal is zero,
the layer is not flagged.  (In the Go source the float division yields
`+Inf`/`NaN`, and in this ℚ model it yields 0; in both cases the strict
comparison against −50 is false, and no division-by-zero fault exists —
the detector is a total function.) -/
theorem c7_zero_previous_not_flagged (lines : List String) (L : ℤ) (cur : ℚ)
    (h : (L, cur, (0 : ℚ)) ∈ boundaryEvents lines) :
    L ∉ detectProblematicLayers lines := by
  intro hmem
  rw [show detectProblematicLayers lines =
      detectSpec (getMapOfSupportLayers lines) lines from
    detectWith_eq_spec (getMapOfSupportLayers lines) lines] at hmem
  unfold detectSpec at hmem
  obtain ⟨e, he, hfe⟩ := List.mem_map.1 hmem
  have heev := (List.mem_filter.1 he).1
  have hflag := (List.mem_filter.1 he).2
  have hnd : ((boundaryEvents lines).map (fun e => e.1)).Nodup := by
    rw [boundaryEvents_map_fst]
    exact List.Nodup.map (fun a b hab => by omega) (List.nodup_range _)
  have heq : e = (L, cur, 0) :=
    List.inj_on_of_nodup_map hnd heev h (by rw [hfe])
  rw [heq] at hflag
  simp only [claimFlag, sub_zero, div_zero, zero_mul, decide_eq_true_eq] at hflag
  have := hflag.2.1
  norm_num at this

/-- Witness for C7: in `fileSmall` the boundary with counter 2 sees
signals (current 100, previous 0) and is not flagged. -/
theorem c7_zero_previous_not_flagged_witness :
    ((2 : ℤ), (100 : ℚ), (0 : ℚ)) ∈ boundaryEvents fileSmall ∧
    (2 : ℤ) ∉ detectProblematicLayers fileSmall := by
  have h : ((2 : ℤ), (100 : ℚ), (0 : ℚ)) ∈ boundaryEvents fileSmall := by
    with_unfolding_all decide
  exact ⟨h, c7_zero_previous_not_flagged fileSmall 2 100 h⟩

/-! ## Correctness of the square-root model -/

/-- The fuel-driven square root is the floor square root whenever the fuel
dominates the argument. -/
theorem isqrtFuel_spec :
    ∀ (fuel n : ℕ), n ≤ fuel →
      isqrtFuel fuel n * isqrtFuel fuel n ≤ n ∧
      n < (isqrtFuel fuel n + 1) * (isqrtFuel fuel n + 1) := by
  intro fuel
  induction fuel with
  | zero =>
    intro n hn
    have : n = 0 := by omega
    subst this
    simp [isqrtFuel]
  | succ fuel ih =>
    intro n hn
    by_cases h0 : n = 0
    · subst h0
      simp [isqrtFuel]
    · have hrec : n / 4 ≤ fuel := by omega
      obtain ⟨ih1, ih2⟩ := ih (n / 4) hrec
      have hmod : n < 4 * (n / 4) + 4 := by omega
      have hlow : (2 * isqrtFuel fuel (n / 4)) * (2 * isqrtFuel fuel (n / 4)) ≤ n := by
        have h1 : 4 * (isqrtFuel fuel (n / 4) * isqrtFuel fuel (n / 4)) ≤ 4 * (n / 4) :=
          Nat.mul_le_mul_left 4 ih1
        have h2 : 4 * (n / 4) ≤ n := by omega
        calc (2 * isqrtFuel fuel (n / 4)) * (2 * isqrtFuel fuel (n / 4))
            = 4 * (isqrtFuel fuel (n / 4) * isqrtFuel fuel (n / 4)) := by ring
          _ ≤ 4 * (n / 4) := h1
          _ ≤ n := h2
      have hhigh : n < (2 * isqrtFuel fuel (n / 4) + 2) * (2 * isqrtFuel fuel (n / 4) + 2) := by
        have h1 : n / 4 + 1 ≤ (isqrtFuel fuel (n / 4) + 1) * (isqrtFuel fuel (n / 4) + 1) := ih2
        have h2 : 4 * (n / 4 + 1) ≤
            4 * ((isqrtFuel fuel (n / 4) + 1) * (isqrtFuel fuel (n / 4) + 1)) :=
          Nat.mul_le_mul_left 4 h1
        calc n < 4 * (n / 4) + 4 := hmod
          _ = 4 * (n / 4 + 1) := by ring
          _ ≤ 4 * ((isqrtFuel fuel (n / 4) + 1) * (isqrtFuel fuel (n / 4) + 1)) := h2
          _ = (2 * isqrtFuel fuel (n / 4) + 2) * (2 * isqrtFuel fuel (n / 4) + 2) := by ring
      rw [show isqrtFuel (fuel + 1) n =
          (if n = 0 then 0
           else
             if (2 * isqrtFuel fuel (n / 4) + 1) * (2 * isqrtFuel fuel (n / 4) + 1) ≤ n
             then 2 * isqrtFuel fuel (n / 4) + 1
             else 2 * isqrtFuel fuel (n / 4)) from rfl,
        if_neg h0]
      by_cases hmid : (2 * isqrtFuel fuel (n / 4) + 1) * (2 * isqrtFuel fuel (n / 4) + 1) ≤ n
      · rw [if_pos hmid]
        exact ⟨hmid, by
          have : 2 * isqrtFuel fuel (n / 4) + 1 + 1 = 2 * isqrtFuel fuel (n / 4) + 2 := by ring
          rw [this]
          exact hhigh⟩
      · rw [if_neg hmid]
        exact ⟨hlow, by omega⟩

/-- The model square root is exact on perfect squares. -/
theorem natSqrt_mul_self (m : ℕ) : natSqrt (m * m) = m := by
  obtain ⟨h1, h2⟩ := isqrtFuel_spec (m * m) (m * m) le_rfl
  unfold natSqrt
  nlinarith [h1, h2]

/-- The rational square-root model is exact on squares of nonnegative
rationals; hence `calculateDistance` agrees with the real Euclidean
distance whenever the latter is rational — in particular on every
concrete input in this file. -/
theorem ratSqrt_mul_self (q : ℚ) (hq : 0 ≤ q) : ratSqrt (q * q) = q := by
  unfold ratSqrt intSqrt
  rw [Rat.mul_self_num, Rat.mul_self_den]
  have hnum : (q.num * q.num).toNat = q.num.toNat * q.num.toNat := by
    have h0 : 0 ≤ q.num := Rat.num_nonneg.2 hq
    obtain ⟨a, ha⟩ := Int.eq_ofNat_of_zero_le h0
    rw [ha, show ((a : ℤ) * a) = ((a * a : ℕ) : ℤ) from by push_cast; ring,
      Int.toNat_natCast, Int.toNat_natCast]
  rw [hnum, natSqrt_mul_self, natSqrt_mul_self]
  have h0 : 0 ≤ q.num := Rat.num_nonneg.2 hq
  rw [Int.toNat_of_nonneg h0, Rat.mkRat_self]

/-- Witness for the square-root model: distance 5 on a 3-4-5 triangle. -/
theorem ratSqrt_mul_self_example :
    (0 : ℚ) ≤ 5 ∧ ratSqrt ((5 : ℚ) * 5) = 5 := ⟨by norm_num, ratSqrt_mul_self 5 (by norm_num)⟩
